import Mathlib

/-!
Shallow embedding of `src/validators/validate.js` (the HyperContext validator).

The validator is a single pure pipeline over the raw document text:
doctype check, block-presence checks, metadata extraction + JSON parse +
field checks (inside a try/catch), instructions and human-docs content
checks, then a verdict derived from the error list, plus a batch main loop.

JavaScript platform functionality used by the source (`JSON.parse`,
`String.prototype.split(/\s+/)`, `String.prototype.includes`, regex
matching, `new Date`) is modelled below by executable Lean functions.
Exceptions of the JS runtime are modelled as `Except String` /
`Option String` values threaded explicitly; the `try { ... } catch`
of the source becomes an explicit match on that exception component.
-/

/-- JSON values as produced by `JSON.parse`.  A number literal is kept
exactly as a decimal mantissa and a power-of-ten exponent
(value = `mant * 10 ^ exp10`); JS stores IEEE doubles, but the only
semantic question the validator ever asks of a number is whether it is
zero, which the exact representation answers identically.
Objects are kept as key/value lists in textual order; duplicate keys are
resolved last-wins on lookup, matching JS object assignment order. -/
inductive Json where
  | null : Json
  | bool : Bool → Json
  | num : Int → Int → Json
  | str : String → Json
  | arr : List Json → Json
  | obj : List (String × Json) → Json

/-- JS truthiness of a JSON-derived value (`!metadata[field]` in the source):
`null`, `false`, `0` and `""` are falsy; arrays and objects are truthy. -/
def jsTruthy : Json → Bool
  | Json.null => false
  | Json.bool b => b
  | Json.num mant _ => !(mant == 0)
  | Json.str s => !(s == "")
  | Json.arr _ => true
  | Json.obj _ => true

/-- Truthiness of a possibly-absent property (`undefined` is falsy). -/
def jsTruthyO : Option Json → Bool
  | none => false
  | some x => jsTruthy x

/-- Last-wins association lookup: JS object property access after
`JSON.parse`, where a duplicated key keeps the last value. -/
def lookupLast : List (String × Json) → String → Option Json
  | [], _ => none
  | (k1, v) :: rest, k =>
    match lookupLast rest k with
    | some r => some r
    | none => if k1 = k then some v else none

/-- Pure property read `metadata[field]` on a non-null value: objects look
the key up; primitives and arrays have none of the seven metadata field
names as properties, so they yield `undefined` (`none`). -/
def jsObjGet : Json → String → Option Json
  | Json.obj l, k => lookupLast l k
  | _, _ => none

/-- Property read `metadata[field]` including the JS fault: reading a
property of `null` throws a TypeError (message text is engine-specific;
V8 also names the property, which we omit). -/
def jsGet (j : Json) (k : String) : Except String (Option Json) :=
  match j with
  | Json.null => Except.error "Cannot read properties of null"
  | _ => Except.ok (jsObjGet j k)

/-- Whitespace class of the JS regex `\s` and of `String.prototype.trim`
(WhiteSpace ∪ LineTerminator of the ES spec). -/
def jsWhiteChar (c : Char) : Bool :=
  c.toNat == 0x09 || c.toNat == 0x0A || c.toNat == 0x0B || c.toNat == 0x0C ||
  c.toNat == 0x0D || c.toNat == 0x20 || c.toNat == 0xA0 || c.toNat == 0x1680 ||
  (0x2000 ≤ c.toNat && c.toNat ≤ 0x200A) || c.toNat == 0x2028 ||
  c.toNat == 0x2029 || c.toNat == 0x202F || c.toNat == 0x205F ||
  c.toNat == 0x3000 || c.toNat == 0xFEFF

/-- `String.prototype.trim`. -/
def jsTrim (s : String) : String :=
  String.mk (((s.data.dropWhile jsWhiteChar).reverse.dropWhile jsWhiteChar).reverse)

/-- `String.prototype.toLowerCase`, restricted to ASCII case folding
(the doctype check only compares against an ASCII literal). -/
def jsToLower (s : String) : String :=
  String.mk (s.data.map Char.toLower)

/-- `String.prototype.startsWith`. -/
def strStartsWith (s p : String) : Bool :=
  p.data.isPrefixOf s.data

/-- Substring containment on char lists. -/
def listHasSub (needle : List Char) : List Char → Bool
  | [] => needle.isEmpty
  | c :: rest => needle.isPrefixOf (c :: rest) || listHasSub needle rest

/-- `String.prototype.includes`. -/
def hasSubstr (s sub : String) : Bool :=
  listHasSub sub.data s.data


/-! ### JSON.parse

A strict JSON parser modelling `JSON.parse` as used at line 45 of the
source.  Error message texts are engine-specific in JS; the source only
forwards them (`e.message`), so the exact wording is immaterial to the
claims — what matters is on which inputs parsing fails. -/

/-- Insignificant JSON whitespace (space, tab, line feed, carriage return). -/
def isJsonWs (c : Char) : Bool :=
  c == ' ' || c == '\t' || c == '\n' || c == '\r'

def skipWsJ (l : List Char) : List Char := l.dropWhile isJsonWs

def digitsToNat (ds : List Char) : Nat :=
  ds.foldl (fun a c => a * 10 + (c.toNat - 48)) 0

def hexVal (c : Char) : Option Nat :=
  if '0' ≤ c && c ≤ '9' then some (c.toNat - 48)
  else if 'a' ≤ c && c ≤ 'f' then some (c.toNat - 87)
  else if 'A' ≤ c && c ≤ 'F' then some (c.toNat - 55)
  else none

/-- Parse the body of a JSON string after the opening quote; returns the
decoded characters and the remaining input after the closing quote.
The `Nat` argument is fuel (every step consumes at least one character,
so callers pass `length + 1` and exhaustion is unreachable); fuel keeps
the recursion structural, hence kernel-computable.
A `\uXXXX` escape denoting a surrogate half is replaced by U+FFFD
(JS strings may hold lone surrogates; Lean chars cannot — no claim
involves surrogate escapes). -/
def parseJStr : Nat → List Char → Except String (List Char × List Char)
  | 0, _ => Except.error "Unterminated string in JSON"
  | _, [] => Except.error "Unterminated string in JSON"
  | fuel + 1, c :: rest =>
    if c == '"' then Except.ok ([], rest)
    else if c == '\\' then
      match rest with
      | [] => Except.error "Unterminated string in JSON"
      | e :: rest2 =>
        if e == '"' || e == '\\' || e == '/' then
          match parseJStr fuel rest2 with
          | Except.ok (cs, r) => Except.ok (e :: cs, r)
          | Except.error msg => Except.error msg
        else if e == 'b' || e == 'f' || e == 'n' || e == 'r' || e == 't' then
          let d : Char :=
            if e == 'b' then Char.ofNat 8
            else if e == 'f' then Char.ofNat 12
            else if e == 'n' then '\n'
            else if e == 'r' then '\r'
            else '\t'
          match parseJStr fuel rest2 with
          | Except.ok (cs, r) => Except.ok (d :: cs, r)
          | Except.error msg => Except.error msg
        else if e == 'u' then
          match rest2 with
          | h1 :: h2 :: h3 :: h4 :: rest3 =>
            match hexVal h1, hexVal h2, hexVal h3, hexVal h4 with
            | some a, some b, some c2, some d =>
              let n := ((a * 16 + b) * 16 + c2) * 16 + d
              let ch := if 0xD800 ≤ n && n < 0xE000 then Char.ofNat 0xFFFD else Char.ofNat n
              match parseJStr fuel rest3 with
              | Except.ok (cs, r) => Except.ok (ch :: cs, r)
              | Except.error msg => Except.error msg
            | _, _, _, _ => Except.error "Bad Unicode escape in JSON string"
          | _ => Except.error "Bad Unicode escape in JSON string"
        else Except.error "Bad escaped character in JSON string"
    else if c.toNat < 0x20 then Except.error "Bad control character in JSON string"
    else
      match parseJStr fuel rest with
      | Except.ok (cs, r) => Except.ok (c :: cs, r)
      | Except.error msg => Except.error msg

/-- Parse a JSON number (input begins with `-` or a digit); the decimal
digits before and after the point form the mantissa, and the exponent is
the written exponent minus the number of fractional digits. -/
def parseNum (l : List Char) : Except String ((Int × Int) × List Char) :=
  let neg := l.head? == some '-'
  let l1 := if neg then l.drop 1 else l
  let intDigits := l1.takeWhile Char.isDigit
  let l2 := l1.drop intDigits.length
  if intDigits.isEmpty then Except.error "Unexpected token in JSON"
  else if intDigits.length > 1 && intDigits.head? == some '0' then
    Except.error "Unexpected number with leading zero in JSON"
  else
    let hasFrac := l2.head? == some '.'
    let fracDigits := if hasFrac then (l2.drop 1).takeWhile Char.isDigit else []
    let l3 := if hasFrac then (l2.drop 1).drop fracDigits.length else l2
    if hasFrac && fracDigits.isEmpty then
      Except.error "Missing digits after decimal point in JSON"
    else
      let mant0 : Int := (digitsToNat (intDigits ++ fracDigits) : Int)
      let mant : Int := if neg then -mant0 else mant0
      let hasExp := l3.head? == some 'e' || l3.head? == some 'E'
      if hasExp then
        let l4 := l3.drop 1
        let expNeg := l4.head? == some '-'
        let l5 := if l4.head? == some '+' || expNeg then l4.drop 1 else l4
        let expDigits := l5.takeWhile Char.isDigit
        if expDigits.isEmpty then Except.error "Missing digits in JSON exponent"
        else
          let l6 := l5.drop expDigits.length
          let ex : Int :=
            (if expNeg then -(digitsToNat expDigits : Int) else (digitsToNat expDigits : Int)) -
              (fracDigits.length : Int)
          Except.ok ((mant, ex), l6)
      else
        Except.ok ((mant, -(fracDigits.length : Int)), l3)

mutual

/-- Parse one JSON value (fuel-indexed; the top entry point supplies more
fuel than any input can consume, so exhaustion is unreachable). -/
def parseVal : Nat → List Char → Except String (Json × List Char)
  | 0, _ => Except.error "JSON value too deeply nested"
  | fuel + 1, l =>
    match skipWsJ l with
    | [] => Except.error "Unexpected end of JSON input"
    | c :: rest =>
      if c == '"' then
        match parseJStr (rest.length + 1) rest with
        | Except.ok (cs, r) => Except.ok (Json.str (String.mk cs), r)
        | Except.error msg => Except.error msg
      else if c == '{' then
        match skipWsJ rest with
        | '}' :: r2 => Except.ok (Json.obj [], r2)
        | r2 => parseMembers fuel r2
      else if c == '[' then
        match skipWsJ rest with
        | ']' :: r2 => Except.ok (Json.arr [], r2)
        | r2 => parseElems fuel r2
      else if c == 't' then
        if ['r', 'u', 'e'].isPrefixOf rest then Except.ok (Json.bool true, rest.drop 3)
        else Except.error "Unexpected token in JSON"
      else if c == 'f' then
        if ['a', 'l', 's', 'e'].isPrefixOf rest then Except.ok (Json.bool false, rest.drop 4)
        else Except.error "Unexpected token in JSON"
      else if c == 'n' then
        if ['u', 'l', 'l'].isPrefixOf rest then Except.ok (Json.null, rest.drop 3)
        else Except.error "Unexpected token in JSON"
      else if c == '-' || c.isDigit then
        match parseNum (c :: rest) with
        | Except.ok ((m, e), r) => Except.ok (Json.num m e, r)
        | Except.error msg => Except.error msg
      else Except.error "Unexpected token in JSON"

/-- Parse the members of an object, positioned at the first key. -/
def parseMembers : Nat → List Char → Except String (Json × List Char)
  | 0, _ => Except.error "JSON value too deeply nested"
  | fuel + 1, l =>
    match l with
    | '"' :: rest =>
      match parseJStr (rest.length + 1) rest with
      | Except.error msg => Except.error msg
      | Except.ok (key, r1) =>
        match skipWsJ r1 with
        | ':' :: r2 =>
          match parseVal fuel r2 with
          | Except.error msg => Except.error msg
          | Except.ok (v, r3) =>
            match skipWsJ r3 with
            | ',' :: r4 =>
              match parseMembers fuel (skipWsJ r4) with
              | Except.ok (Json.obj ms, r5) => Except.ok (Json.obj ((String.mk key, v) :: ms), r5)
              | Except.ok (_, _) => Except.error "Unexpected token in JSON"
              | Except.error msg => Except.error msg
            | '}' :: r4 => Except.ok (Json.obj [(String.mk key, v)], r4)
            | _ => Except.error "Expected comma or closing brace in JSON object"
        | _ => Except.error "Expected colon in JSON object"
    | _ => Except.error "Expected property name in JSON object"

/-- Parse the elements of an array, positioned at the first element. -/
def parseElems : Nat → List Char → Except String (Json × List Char)
  | 0, _ => Except.error "JSON value too deeply nested"
  | fuel + 1, l =>
    match parseVal fuel l with
    | Except.error msg => Except.error msg
    | Except.ok (v, r1) =>
      match skipWsJ r1 with
      | ',' :: r2 =>
        match parseElems fuel r2 with
        | Except.ok (Json.arr vs, r3) => Except.ok (Json.arr (v :: vs), r3)
        | Except.ok (_, _) => Except.error "Unexpected token in JSON"
        | Except.error msg => Except.error msg
      | ']' :: r2 => Except.ok (Json.arr [v], r2)
      | _ => Except.error "Expected comma or closing bracket in JSON array"

end

/-- `JSON.parse`: parse one value and insist the rest is whitespace. -/
def jsonParse (s : String) : Except String Json :=
  match parseVal (s.data.length + 2) s.data with
  | Except.error msg => Except.error msg
  | Except.ok (j, rest) =>
    if (skipWsJ rest).isEmpty then Except.ok j
    else Except.error "Unexpected non-whitespace character after JSON data"

example : jsonParse "null" = Except.ok Json.null := by rfl
example : jsonParse " \x7b \"a\": [1, true, \"x\"] \x7d " =
    Except.ok (Json.obj [("a", Json.arr [Json.num 1 0, Json.bool true, Json.str "x"])]) := by rfl
example : (jsonParse "\x7b").isOk = false := by rfl
example : (jsonParse "01").isOk = false := by rfl
example : jsonParse "-1.5e1" = Except.ok (Json.num (-15) 0) := by rfl

/-! ### Block extraction

Model of the source regexes (lines 42, 96, 108)

  `/<tag[^>]*id="BLOCK"[^>]*>([\s\S]*?)<\/tag>/`

An opening-tag match starting at a position requires the literal tag
text, then a `>`-free region up to the first `>`, containing the literal
`id="BLOCK"`; the lazy capture runs to the first subsequent closing tag.
The regex engine tries start positions left to right, which the scan
below reproduces. -/

/-- Split at the first occurrence of a character: `some (before, after)`
with the character itself dropped, or `none` if absent. -/
def splitAtFirst (t : Char) : List Char → Option (List Char × List Char)
  | [] => none
  | c :: rest =>
    if c == t then some ([], rest)
    else
      match splitAtFirst t rest with
      | some (pre, post) => some (c :: pre, post)
      | none => none

/-- Capture up to the first occurrence of `closeTag`: `some` of the
characters before it, or `none` if the closing tag never occurs. -/
def takeUntilClose (closeTag : List Char) : List Char → Option (List Char)
  | [] => none
  | c :: rest =>
    if closeTag.isPrefixOf (c :: rest) then some []
    else
      match takeUntilClose closeTag rest with
      | some cap => some (c :: cap)
      | none => none

/-- Try the full pattern anchored at the head of `l`. -/
def tryMatchAt (openTag closeTag idAttr l : List Char) : Option (List Char) :=
  if openTag.isPrefixOf l then
    match splitAtFirst '>' (l.drop openTag.length) with
    | none => none
    | some (region, afterGt) =>
      if listHasSub idAttr region then takeUntilClose closeTag afterGt
      else none
  else none

/-- Leftmost match: scan start positions left to right. -/
def extractTagged (openTag closeTag idAttr : List Char) : List Char → Option (List Char)
  | [] => none
  | c :: rest =>
    match tryMatchAt openTag closeTag idAttr (c :: rest) with
    | some cap => some cap
    | none => extractTagged openTag closeTag idAttr rest

/-- `content.match(/<script[^>]*id="BLOCK"[^>]*>([\s\S]*?)<\/script>/)`,
returning the capture group. -/
def extractScriptBlock (content blockId : String) : Option String :=
  (extractTagged "<script".data "</script>".data ("id=\"" ++ blockId ++ "\"").data
    content.data).map String.mk

/-- `content.match(/<div[^>]*id="BLOCK"[^>]*>([\s\S]*?)<\/div>/)`,
returning the capture group. -/
def extractDivBlock (content blockId : String) : Option String :=
  (extractTagged "<div".data "</div>".data ("id=\"" ++ blockId ++ "\"").data
    content.data).map String.mk

example : extractScriptBlock "<!DOCTYPE html><script id=\"hc-metadata\">null</script>" "hc-metadata"
    = some "null" := by rfl
example : extractScriptBlock "<div id=\"hc-metadata\">null</div>" "hc-metadata" = none := by rfl
example : extractScriptBlock "<script type=\"application/json\" id=\"hc-metadata\">x</script><script id=\"hc-metadata\">y</script>" "hc-metadata"
    = some "x" := by rfl
example : extractScriptBlock "<script id=\"hc-metadata\">no close" "hc-metadata" = none := by rfl

/-! ### `summary.split(/\s+/)` -/

/-- Worker for the split: the second argument is `some cur` while
accumulating a (reversed) token, and `none` while inside a whitespace
run whose preceding token has already been emitted. -/
def splitWsAux : List Char → Option (List Char) → List String
  | [], some cur => [String.mk cur.reverse]
  | [], none => [""]
  | c :: rest, some cur =>
    if jsWhiteChar c then String.mk cur.reverse :: splitWsAux rest none
    else splitWsAux rest (some (c :: cur))
  | c :: rest, none =>
    if jsWhiteChar c then splitWsAux rest none
    else splitWsAux rest (some [c])

/-- `s.split(/\s+/)`: separators are maximal whitespace runs; a leading
or trailing run contributes an empty token, exactly as in JS. -/
def jsSplitWs (s : String) : List String :=
  splitWsAux s.data (some [])

example : jsSplitWs "a b  c" = ["a", "b", "c"] := by rfl
example : jsSplitWs " a " = ["", "a", ""] := by rfl
example : jsSplitWs "" = [""] := by rfl
example : jsSplitWs "   " = ["", ""] := by rfl

/-! ### String conversion and Date parsing -/

/-- Fuel-indexed JS `ToString` coercion used by template literals and by
`Array.prototype.join` (array elements that are `null` render empty).
Numbers with a nonzero exponent and non-integral values are rendered in
mantissa/exponent notation; the JS engine renders shortest-roundtrip
decimal forms of doubles, which we do not model — no claim inspects the
rendering of a non-integer number. -/
def jsToStringF : Nat → Json → String
  | _, Json.null => "null"
  | _, Json.bool b => if b then "true" else "false"
  | _, Json.num m e => if e == 0 then toString m else toString m ++ "e" ++ toString e
  | _, Json.str s => s
  | 0, Json.arr _ => ""
  | fuel + 1, Json.arr a =>
    String.intercalate ","
      (a.map fun x =>
        match x with
        | Json.null => ""
        | y => jsToStringF fuel y)
  | _, Json.obj _ => "[object Object]"

/-- JS string coercion of a JSON-derived value.  The fuel bounds only the
array-nesting depth of the rendering (Lean cannot recurse structurally
through the nested `List Json`); arrays nested deeper than the constant
render their deepest levels as empty.  No message inspected by a claim
renders an array at all. -/
def jsToString (j : Json) : String := jsToStringF 1000000 j

/-- String coercion of a property value (`undefined` renders as such). -/
def jsToStringO : Option Json → String
  | none => "undefined"
  | some x => jsToString x

example : jsToString (Json.str "widget") = "widget" := by rfl
example : jsToString (Json.num 5 0) = "5" := by rfl
example : jsToString (Json.arr [Json.num 2024 0]) = "2024" := by rfl

/-- Two ASCII digits denoting a value within `[lo, hi]`. -/
def twoDigitsIn (l : List Char) (lo hi : Nat) : Bool :=
  l.length == 2 && l.all Char.isDigit && lo ≤ digitsToNat l && digitsToNat l ≤ hi

/-- ES ISO date portion: `YYYY`, `YYYY-MM` or `YYYY-MM-DD`. -/
def isoDateOk (l : List Char) : Bool :=
  (l.take 4).length == 4 && (l.take 4).all Char.isDigit &&
    (let r := l.drop 4
     r.isEmpty ||
       (r.head? == some '-' && twoDigitsIn ((r.drop 1).take 2) 1 12 &&
         (let r2 := r.drop 3
          r2.isEmpty ||
            (r2.head? == some '-' && twoDigitsIn ((r2.drop 1).take 2) 1 31 &&
              (r2.drop 3).isEmpty))))

/-- ES ISO time-zone offset: empty, `Z`, or `±HH:mm`. -/
def isoOffsetOk (l : List Char) : Bool :=
  l.isEmpty || l == ['Z'] ||
    ((l.head? == some '+' || l.head? == some '-') &&
      twoDigitsIn ((l.drop 1).take 2) 0 23 && (l.drop 3).head? == some ':' &&
      twoDigitsIn ((l.drop 4).take 2) 0 59 && (l.drop 6).isEmpty)

/-- ES ISO time portion: `HH:mm[:ss[.fff]]` plus an optional offset. -/
def isoTimeOk (l : List Char) : Bool :=
  twoDigitsIn (l.take 2) 0 23 && (l.drop 2).head? == some ':' &&
    twoDigitsIn ((l.drop 3).take 2) 0 59 &&
    (let r := l.drop 5
     if r.head? == some ':' then
       twoDigitsIn ((r.drop 1).take 2) 0 59 &&
         (let r2 := r.drop 3
          if r2.head? == some '.' then
            let fd := (r2.drop 1).takeWhile Char.isDigit
            !fd.isEmpty && isoOffsetOk ((r2.drop 1).drop fd.length)
          else isoOffsetOk r2)
     else isoOffsetOk r)

/-- Whether `new Date(s)` yields a valid date for string `s`: modelled on
the ES date-time string format (ISO 8601 subset).  Real engines fall
back to additional implementation-defined formats that are not modelled;
no claim depends on those, and every concrete date string used below is
either ISO-formatted or invalid in every engine. -/
def jsDateStringOk (s : String) : Bool :=
  match splitAtFirst 'T' s.data with
  | none => isoDateOk s.data
  | some (d, t) => isoDateOk d && isoTimeOk t

/-- `!isNaN(new Date(v).getTime())` for a JSON-derived argument `v`:
numbers are finite but must lie within the representable millisecond
range; booleans coerce to 0/1; strings are parsed; an array coerces to
its joined string and is re-parsed; plain objects are invalid. -/
def jsDateValid : Json → Bool
  | Json.num m e =>
    if e ≥ 0 then (if m < 0 then -m else m) * 10 ^ e.toNat ≤ 8640000000000000
    else (if m < 0 then -m else m) ≤ 8640000000000000 * 10 ^ (-e).toNat
  | Json.bool _ => true
  | Json.null => true
  | Json.str s => jsDateStringOk s
  | Json.arr a => jsDateStringOk (jsToString (Json.arr a))
  | Json.obj _ => false

def jsDateValidO : Option Json → Bool
  | none => false
  | some x => jsDateValid x

example : jsDateValid (Json.str "2024-02-08T00:00:00Z") = true := by rfl
example : jsDateValid (Json.str "2024-02-08") = true := by rfl
example : jsDateValid (Json.str "not-a-date") = false := by rfl

/-- The anchored regex `^hc-(registry|skill|artifact|identity|framework)-[a-z0-9-]+-\d+$`
from line 66: character class of the slug. -/
def slugCharOk (c : Char) : Bool :=
  ('a' ≤ c && c ≤ 'z') || ('0' ≤ c && c ≤ '9') || c == '-'

/-- Match `[a-z0-9-]+-\d+` against the whole list: some split point has a
nonempty slug before a hyphen and nonempty digits after it. -/
def idTailOk (l : List Char) : Bool :=
  (List.range l.length).any fun k =>
    0 < k && (l.take k).all slugCharOk && (l.drop k).head? == some '-' &&
      !(l.drop (k + 1)).isEmpty && (l.drop (k + 1)).all Char.isDigit

def VALID_TYPES : List String := ["registry", "skill", "artifact", "identity", "framework"]

/-- `idPattern.test(s)` for the artifact-id pattern. -/
def idPatternTest (s : String) : Bool :=
  VALID_TYPES.any fun ty =>
    let pre := "hc-" ++ ty ++ "-"
    pre.data.isPrefixOf s.data && idTailOk (s.data.drop pre.data.length)

example : idPatternTest "hc-skill-foo-bar-20240208" = true := by rfl
example : idPatternTest "hc-widget-foo-20240208" = false := by rfl
example : idPatternTest "hc-skill-foo" = false := by rfl

/-! ### The validator pipeline (`validate`, lines 16–137)

Findings are accumulated into two lists (`errors`, `warnings`) exactly in
source push order.  The `try { ... } catch (e)` around the metadata work
(lines 44–92) is modelled by threading an `Option String` exception
component: a `some` short-circuits the remaining metadata steps, keeping
the findings pushed before the throw, and the catch handler appends the
`Invalid JSON in hc-metadata:` error. -/

def REQUIRED_BLOCKS : List String := ["hc-metadata", "hc-instructions", "hc-human-docs"]

def REQUIRED_METADATA_FIELDS : List String :=
  ["hc_version", "hc_type", "artifact_id", "version", "created", "updated", "summary"]

def TIMESTAMP_FIELDS : List String := ["created", "updated"]

/-- Lines 30–32: the HTML5 doctype prefix check. -/
def doctypeErrs (content : String) : List String :=
  if !strStartsWith (jsToLower (jsTrim content)) "<!doctype html>" then
    ["Missing HTML5 doctype (<!DOCTYPE html>)"]
  else []

/-- Lines 35–39: required-block presence, a literal `id="BLOCK"` substring
check on the whole document. -/
def blockErrs (content : String) : List String :=
  REQUIRED_BLOCKS.filterMap fun blockId =>
    if hasSubstr content ("id=\"" ++ blockId ++ "\"") then none
    else some ("Missing required block: #" ++ blockId)

/-- Lines 48–51: required metadata field loop.  Result: the errors pushed,
and the pending exception if a property read threw (which also ends the
loop, keeping the errors already pushed). -/
def fieldLoop (j : Json) : List String → List String × Option String
  | [] => ([], none)
  | field :: rest =>
    match jsGet j field with
    | Except.error e => ([], some e)
    | Except.ok v =>
      let tail := fieldLoop j rest
      if !jsTruthyO v then
        (("Missing required metadata field: " ++ field) :: tail.1, tail.2)
      else tail

/-- Is the property value the JS string "1.1"?  (strict `!==` against a
string literal is false for every non-string value). -/
def isStr11 : Option Json → Bool
  | some (Json.str s) => s == "1.1"
  | _ => false

/-- Lines 55–57: `hc_version` warning. -/
def versionStep (j : Json) : List String × Option String :=
  match jsGet j "hc_version" with
  | Except.error e => ([], some e)
  | Except.ok v =>
    if jsTruthyO v && !isStr11 v then
      (["hc_version should be \"1.1\", found \"" ++ jsToStringO v ++ "\""], none)
    else ([], none)

/-- `VALID_TYPES.includes(v)`: `includes` compares with strict equality,
so only string values can be members. -/
def jsInStrList (v : Option Json) (l : List String) : Bool :=
  match v with
  | some (Json.str s) => l.contains s
  | _ => false

/-- Lines 60–62: `hc_type` enum check. -/
def typeStep (j : Json) : List String × Option String :=
  match jsGet j "hc_type" with
  | Except.error e => ([], some e)
  | Except.ok v =>
    if jsTruthyO v && !jsInStrList v VALID_TYPES then
      (["Invalid hc_type: " ++ jsToStringO v ++ ". Must be one of: " ++
          String.intercalate ", " VALID_TYPES], none)
    else ([], none)

/-- Lines 65–70: `artifact_id` format warning (`RegExp.test` coerces its
argument to a string). -/
def artifactStep (j : Json) : List String × Option String :=
  match jsGet j "artifact_id" with
  | Except.error e => ([], some e)
  | Except.ok v =>
    if jsTruthyO v then
      if !idPatternTest (jsToStringO v) then
        (["artifact_id format should be: hc-[type]-[slug]-[timestamp]"], none)
      else ([], none)
    else ([], none)

/-- Lines 73–80: timestamp loop over `created` and `updated`. -/
def tsLoop (j : Json) : List String → List String × Option String
  | [] => ([], none)
  | tsField :: rest =>
    match jsGet j tsField with
    | Except.error e => ([], some e)
    | Except.ok v =>
      let tail := tsLoop j rest
      if jsTruthyO v && !jsDateValidO v then
        (("Invalid " ++ tsField ++ " timestamp: " ++ jsToStringO v) :: tail.1, tail.2)
      else tail

/-- Lines 83–88: summary word count.  `metadata.summary.split` throws a
TypeError when the (truthy) summary is not a string. -/
def summaryStep (j : Json) : List String × Option String :=
  match jsGet j "summary" with
  | Except.error e => ([], some e)
  | Except.ok v =>
    if jsTruthyO v then
      match v with
      | some (Json.str s) =>
        let wordCount := (jsSplitWs s).length
        if wordCount < 10 then
          (["Summary seems short (" ++ toString wordCount ++
              " words). Aim for 50-100 tokens."], none)
        else ([], none)
      | _ => ([], some "metadata.summary.split is not a function")
    else ([], none)

/-- Lines 47–88: the body of the `try` block after a successful parse,
with each step short-circuited by a pending exception.  Returns
(errors pushed, warnings pushed, uncaught exception). -/
def runSteps (j : Json) : List String × List String × Option String :=
  let fields := fieldLoop j REQUIRED_METADATA_FIELDS
  match fields.2 with
  | some e => (fields.1, [], some e)
  | none =>
    let ver := versionStep j
    match ver.2 with
    | some e => (fields.1, ver.1, some e)
    | none =>
      let ty := typeStep j
      match ty.2 with
      | some e => (fields.1 ++ ty.1, ver.1, some e)
      | none =>
        let aid := artifactStep j
        match aid.2 with
        | some e => (fields.1 ++ ty.1, ver.1 ++ aid.1, some e)
        | none =>
          let ts := tsLoop j TIMESTAMP_FIELDS
          match ts.2 with
          | some e => (fields.1 ++ ty.1 ++ ts.1, ver.1 ++ aid.1, some e)
          | none =>
            let summ := summaryStep j
            (fields.1 ++ ty.1 ++ ts.1, ver.1 ++ aid.1 ++ summ.1, summ.2)

/-- Lines 44–92: the whole `try` body on the extracted metadata text:
`JSON.parse` then the field-level steps. -/
def metaTryBody (m : String) : List String × List String × Option String :=
  match jsonParse m with
  | Except.error e => ([], [], some e)
  | Except.ok metadata => runSteps metadata

/-- Lines 42–93: extract the metadata block; if the regex matched, run
the try body on the capture. -/
def metaPhase (content : String) : List String × List String × Option String :=
  match extractScriptBlock content "hc-metadata" with
  | none => ([], [], none)
  | some m => metaTryBody m

/-- Lines 90–92: the catch handler turns a pending exception into the
`Invalid JSON in hc-metadata` error. -/
def catchErrs : Option String → List String
  | none => []
  | some e => ["Invalid JSON in hc-metadata: " ++ e]

/-- Lines 96–105: instructions-content warnings. -/
def instrWarns (content : String) : List String :=
  match extractScriptBlock content "hc-instructions" with
  | none => []
  | some b =>
    let instructions := jsTrim b
    (if instructions.length < 100 then
       ["hc-instructions seems very short. Include detailed steps."]
     else []) ++
    (if !hasSubstr instructions "Step" then
       ["hc-instructions should include numbered steps"]
     else [])

/-- Lines 108–114: human-docs content warning. -/
def docsWarns (content : String) : List String :=
  match extractDivBlock content "hc-human-docs" with
  | none => []
  | some b =>
    let docs := jsTrim b
    if docs.length < 200 then
      ["hc-human-docs seems very short. Include comprehensive documentation."]
    else []

/-- The two finding lists of one validation run. -/
structure ValidationResult where
  errors : List String
  warnings : List String
deriving DecidableEq

/-- Lines 29–114: the full content pipeline, findings in source push
order. -/
def validateResult (content : String) : ValidationResult :=
  let mp := metaPhase content
  { errors := doctypeErrs content ++ blockErrs content ++ mp.1 ++ catchErrs mp.2.2
    warnings := mp.2.1 ++ instrWarns content ++ docsWarns content }

/-- Lines 119–136: the per-document return code: an early `return 0` when
there are no findings at all, otherwise 1 iff any error. -/
def validateExit (content : String) : Nat :=
  let r := validateResult content
  if r.errors.length == 0 && r.warnings.length == 0 then 0
  else if r.errors.length > 0 then 1 else 0

/-! ### The batch main loop (lines 140–153) with the file read
(lines 21–27).  `fs.readFileSync` is modelled by lookup in an explicit
path↦contents association; a failed read hits `process.exit(1)`
(line 26), which terminates the whole process: no report is produced for
that document nor for any later one. -/

/-- `fs.readFileSync`, over a model file system. -/
def readFs (fs : List (String × String)) (p : String) : Option String :=
  (fs.find? fun entry => entry.1 == p).map fun entry => entry.2

/-- The `for (const arg of args)` loop carrying `exitCode`; returns the
per-document reports produced before the process ended, and the final
exit code. -/
def runBatch (fs : List (String × String)) :
    List String → Nat → List (String × ValidationResult) × Nat
  | [], code => ([], code)
  | arg :: rest, code =>
    match readFs fs arg with
    | none => ([], 1)
    | some content =>
      let r := validateResult content
      let c := validateExit content
      let next := runBatch fs rest (if c != 0 then c else code)
      ((arg, r) :: next.1, next.2)

/-- Lines 147–153: the batch entry point. -/
def mainRun (fs : List (String × String)) (args : List String) :
    List (String × ValidationResult) × Nat :=
  runBatch fs args 0


/-! ### Concrete documents used as witnesses and counterexamples -/

/-- A fully valid document: doctype, all three blocks, complete metadata
(type `skill`, matching version, pattern-conforming artifact id, ISO
timestamps, ten-word summary). -/
def passDoc : String :=
  "<!DOCTYPE html><script id=\"hc-metadata\">\x7b\"hc_version\":\"1.1\",\"hc_type\":\"skill\",\"artifact_id\":\"hc-skill-foo-bar-20240208\",\"version\":\"1.0.0\",\"created\":\"2024-02-08T00:00:00Z\",\"updated\":\"2024-02-08T00:00:00Z\",\"summary\":\"one two three four five six seven eight nine ten\"\x7d</script><script id=\"hc-instructions\">Step 1</script><div id=\"hc-human-docs\">d</div>"

/-- `passDoc` with `hc_type` changed to `"widget"` (truthy, outside the
enum). -/
def widgetDoc : String :=
  "<!DOCTYPE html><script id=\"hc-metadata\">\x7b\"hc_version\":\"1.1\",\"hc_type\":\"widget\",\"artifact_id\":\"hc-skill-foo-bar-20240208\",\"version\":\"1.0.0\",\"created\":\"2024-02-08T00:00:00Z\",\"updated\":\"2024-02-08T00:00:00Z\",\"summary\":\"one two three four five six seven eight nine ten\"\x7d</script><script id=\"hc-instructions\">Step 1</script><div id=\"hc-human-docs\">d</div>"

/-- `passDoc` with `hc_type` changed to `""` (falsy, outside the enum). -/
def emptyTypeDoc : String :=
  "<!DOCTYPE html><script id=\"hc-metadata\">\x7b\"hc_version\":\"1.1\",\"hc_type\":\"\",\"artifact_id\":\"hc-skill-foo-bar-20240208\",\"version\":\"1.0.0\",\"created\":\"2024-02-08T00:00:00Z\",\"updated\":\"2024-02-08T00:00:00Z\",\"summary\":\"one two three four five six seven eight nine ten\"\x7d</script><script id=\"hc-instructions\">Step 1</script><div id=\"hc-human-docs\">d</div>"

/-- `passDoc` with a nine-word summary. -/
def nineWordDoc : String :=
  "<!DOCTYPE html><script id=\"hc-metadata\">\x7b\"hc_version\":\"1.1\",\"hc_type\":\"skill\",\"artifact_id\":\"hc-skill-foo-bar-20240208\",\"version\":\"1.0.0\",\"created\":\"2024-02-08T00:00:00Z\",\"updated\":\"2024-02-08T00:00:00Z\",\"summary\":\"one two three four five six seven eight nine\"\x7d</script><script id=\"hc-instructions\">Step 1</script><div id=\"hc-human-docs\">d</div>"

/-- A document whose metadata block holds the valid JSON text `null`. -/
def nullMetaDoc : String :=
  "<!DOCTYPE html><script id=\"hc-metadata\">null</script><script id=\"hc-instructions\">Step 1</script><div id=\"hc-human-docs\">d</div>"

/-- A document whose metadata block holds invalid JSON. -/
def badJsonDoc : String :=
  "<!DOCTYPE html><script id=\"hc-metadata\">\x7boops</script><script id=\"hc-instructions\">Step 1</script><div id=\"hc-human-docs\">d</div>"

/-- A second document with invalid JSON metadata (truncated input). -/
def badJsonDoc2 : String :=
  "<!DOCTYPE html><script id=\"hc-metadata\">[1,</script>"

/-- A document whose metadata parses but whose `summary` is the truthy
non-string `5`. -/
def numSummaryDoc : String :=
  "<!DOCTYPE html><script id=\"hc-metadata\">\x7b\"summary\": 5\x7d</script>"

/-- A document where the metadata identifier appears only as bare text,
not on a `<script>` element: the presence check passes, yet extraction
finds nothing. -/
def bareIdDoc : String := "id=\"hc-metadata\""

/-! ### Helper lemmas -/

set_option maxRecDepth 100000

theorem listHasSub_nil (needle : List Char) :
    listHasSub needle [] = needle.isEmpty := rfl

theorem listHasSub_cons (needle : List Char) (c : Char) (rest : List Char) :
    listHasSub needle (c :: rest)
      = (needle.isPrefixOf (c :: rest) || listHasSub needle rest) := rfl

/-- `listHasSub` decides list infix-hood, i.e. JS `includes`. -/
theorem listHasSub_iff (needle hay : List Char) :
    listHasSub needle hay = true ↔ needle <:+: hay := by
  induction hay with
  | nil =>
    simp [listHasSub, List.isEmpty_iff, List.infix_nil]
  | cons c rest ih =>
    rw [listHasSub_cons, Bool.or_eq_true, List.isPrefixOf_iff_prefix, ih]
    constructor
    · rintro (h | h)
      · exact h.isInfix
      · exact h.trans (List.suffix_cons c rest).isInfix
    · rintro ⟨pre, suf, h⟩
      match pre with
      | [] => exact Or.inl ⟨suf, by simpa using h⟩
      | p :: pre =>
        refine Or.inr ⟨pre, suf, ?_⟩
        simpa using congrArg List.tail h

theorem str_assoc (a b c : String) : a ++ b ++ c = a ++ (b ++ c) :=
  String.ext (by simp [String.data_append])

theorem take_data_append (p a : String) (n : Nat) (hn : n ≤ p.length) :
    ((p ++ a).data).take n = p.data.take n := by
  rw [String.data_append, List.take_append_eq_append_take]
  have hz : n - p.data.length = 0 := Nat.sub_eq_zero_of_le hn
  rw [hz]
  simp

theorem str_ne_of_take (s t : String) (n : Nat) (h : s.data.take n ≠ t.data.take n) :
    s ≠ t :=
  fun heq => h (by rw [heq])

/-- Two strings with fixed distinct prefixes differ, whatever the tails. -/
theorem strcat_ne_strcat (p a q b : String) (n : Nat) (hnp : n ≤ p.length)
    (hnq : n ≤ q.length) (h : p.data.take n ≠ q.data.take n) : p ++ a ≠ q ++ b := by
  apply str_ne_of_take _ _ n
  rw [take_data_append p a n hnp, take_data_append q b n hnq]
  exact h

/-- A string with a fixed prefix differs from a fixed string with another
prefix. -/
theorem strcat_ne_left (p a t : String) (n : Nat) (hn : n ≤ p.length)
    (h : p.data.take n ≠ t.data.take n) : p ++ a ≠ t := by
  apply str_ne_of_take _ _ n
  rw [take_data_append p a n hn]
  exact h

theorem strcat_cancel {p a b : String} (h : p ++ a = p ++ b) : a = b := by
  apply String.ext
  have h2 := congrArg String.data h
  rw [String.data_append, String.data_append] at h2
  exact List.append_cancel_left h2

/-- Property reads never throw on a non-null value. -/
theorem jsGet_ok (j : Json) (h : j ≠ Json.null) (k : String) :
    jsGet j k = Except.ok (jsObjGet j k) := by
  cases j <;> simp_all [jsGet]

theorem fieldLoop_cons (j : Json) (h : j ≠ Json.null) (f : String) (rest : List String) :
    fieldLoop j (f :: rest)
      = (if jsTruthyO (jsObjGet j f) = false then
           ("Missing required metadata field: " ++ f) :: (fieldLoop j rest).1
         else (fieldLoop j rest).1, (fieldLoop j rest).2) := by
  simp only [fieldLoop, jsGet_ok j h]
  by_cases ht : jsTruthyO (jsObjGet j f) = true
  · simp [ht]
  · simp only [Bool.not_eq_true] at ht
    simp [ht]

theorem fieldLoop_exc_none (j : Json) (h : j ≠ Json.null) (fs : List String) :
    (fieldLoop j fs).2 = none := by
  induction fs with
  | nil => rfl
  | cons f rest ih => rw [fieldLoop_cons j h]; exact ih

theorem fieldLoop_errs_shape (j : Json) (fs : List String) (e : String)
    (he : e ∈ (fieldLoop j fs).1) :
    ∃ f, f ∈ fs ∧ e = "Missing required metadata field: " ++ f := by
  induction fs with
  | nil => simp [fieldLoop] at he
  | cons f rest ih =>
    simp only [fieldLoop] at he
    split at he
    · simp at he
    · split at he
      · have he2 : e = "Missing required metadata field: " ++ f ∨ e ∈ (fieldLoop j rest).1 :=
          List.mem_cons.mp he
        rcases he2 with h1 | h1
        · exact ⟨f, List.mem_cons_self f rest, h1⟩
        · obtain ⟨g, hg1, hg2⟩ := ih h1
          exact ⟨g, List.mem_cons_of_mem f hg1, hg2⟩
      · obtain ⟨g, hg1, hg2⟩ := ih he
        exact ⟨g, List.mem_cons_of_mem f hg1, hg2⟩

theorem fieldLoop_errs_mem (j : Json) (h : j ≠ Json.null) (fs : List String) (f : String) :
    (("Missing required metadata field: " ++ f) ∈ (fieldLoop j fs).1)
      ↔ (f ∈ fs ∧ jsTruthyO (jsObjGet j f) = false) := by
  induction fs with
  | nil => simp [fieldLoop]
  | cons g rest ih =>
    rw [fieldLoop_cons j h]
    by_cases hfg : f = g
    · subst hfg
      by_cases ht : jsTruthyO (jsObjGet j f) = false
      · simp [ht, ih]
      · simp only [Bool.not_eq_false] at ht
        simp [ht, ih]
    · have hmsg : ("Missing required metadata field: " ++ f)
          ≠ ("Missing required metadata field: " ++ g) :=
        fun hc => hfg (strcat_cancel hc)
      by_cases ht : jsTruthyO (jsObjGet j g) = false
      · simp only [ht, if_true, List.mem_cons, hmsg, false_or, ih]
        constructor
        · rintro ⟨h1, h2⟩; exact ⟨Or.inr h1, h2⟩
        · rintro ⟨h1 | h1, h2⟩
          · exact absurd h1 hfg
          · exact ⟨h1, h2⟩
      · simp only [Bool.not_eq_false] at ht
        simp only [ht, Bool.true_eq_false, if_false, ih, List.mem_cons]
        constructor
        · rintro ⟨h1, h2⟩; exact ⟨Or.inr h1, h2⟩
        · rintro ⟨h1 | h1, h2⟩
          · exact absurd h1 hfg
          · exact ⟨h1, h2⟩

theorem fieldLoop_errs_nil (j : Json) (h : j ≠ Json.null) (fs : List String) :
    (fieldLoop j fs).1 = [] ↔ ∀ f ∈ fs, jsTruthyO (jsObjGet j f) = true := by
  induction fs with
  | nil => simp [fieldLoop]
  | cons g rest ih =>
    rw [fieldLoop_cons j h]
    by_cases ht : jsTruthyO (jsObjGet j g) = false
    · simp [ht]
    · simp only [Bool.not_eq_false] at ht
      simp [ht, ih]

theorem versionStep_exc (j : Json) (h : j ≠ Json.null) : (versionStep j).2 = none := by
  simp only [versionStep, jsGet_ok j h]
  split <;> rfl

theorem typeStep_exc (j : Json) (h : j ≠ Json.null) : (typeStep j).2 = none := by
  simp only [typeStep, jsGet_ok j h]
  split <;> rfl

theorem artifactStep_exc (j : Json) (h : j ≠ Json.null) : (artifactStep j).2 = none := by
  simp only [artifactStep, jsGet_ok j h]
  split
  · split <;> rfl
  · rfl

theorem tsLoop_cons (j : Json) (h : j ≠ Json.null) (f : String) (rest : List String) :
    tsLoop j (f :: rest)
      = (if (jsTruthyO (jsObjGet j f) && !jsDateValidO (jsObjGet j f)) = true then
           ("Invalid " ++ f ++ " timestamp: " ++ jsToStringO (jsObjGet j f)) :: (tsLoop j rest).1
         else (tsLoop j rest).1, (tsLoop j rest).2) := by
  simp only [tsLoop, jsGet_ok j h]
  split <;> rfl

theorem tsLoop_exc (j : Json) (h : j ≠ Json.null) (fs : List String) :
    (tsLoop j fs).2 = none := by
  induction fs with
  | nil => rfl
  | cons f rest ih => rw [tsLoop_cons j h]; exact ih

theorem tsLoop_errs_shape (j : Json) (fs : List String) (e : String)
    (he : e ∈ (tsLoop j fs).1) : ∃ r, e = "Invalid " ++ r := by
  induction fs with
  | nil => simp [tsLoop] at he
  | cons f rest ih =>
    simp only [tsLoop] at he
    split at he
    · simp at he
    · split at he
      · have he2 : e = "Invalid " ++ f ++ " timestamp: " ++ jsToStringO _ ∨ e ∈ (tsLoop j rest).1 :=
          List.mem_cons.mp he
        rcases he2 with h1 | h1
        · rw [str_assoc, str_assoc] at h1
          exact ⟨_, h1⟩
        · exact ih h1
      · exact ih he

theorem typeStep_errs_shape (j : Json) (e : String) (he : e ∈ (typeStep j).1) :
    ∃ r, e = "Invalid " ++ r := by
  simp only [typeStep] at he
  split at he
  · simp at he
  · split at he
    · have he2 : e = "Invalid hc_type: " ++ jsToStringO _ ++ ". Must be one of: " ++
          String.intercalate ", " VALID_TYPES := List.mem_singleton.mp he
      rw [show ("Invalid hc_type: " : String) = "Invalid " ++ "hc_type: " from rfl,
        str_assoc, str_assoc, str_assoc] at he2
      exact ⟨_, he2⟩
    · simp at he

/-- Under no thrown exception anywhere (which `j ≠ null` guarantees for
all steps except the summary), `runSteps` is the plain concatenation of
the step outputs, and its pending exception is that of the summary step. -/
theorem runSteps_eq (j : Json) (h : j ≠ Json.null) :
    runSteps j
      = ((fieldLoop j REQUIRED_METADATA_FIELDS).1 ++ (typeStep j).1 ++ (tsLoop j TIMESTAMP_FIELDS).1,
         (versionStep j).1 ++ (artifactStep j).1 ++ (summaryStep j).1,
         (summaryStep j).2) := by
  simp only [runSteps, fieldLoop_exc_none j h, versionStep_exc j h, typeStep_exc j h,
    artifactStep_exc j h, tsLoop_exc j h]

/-- Every error the metadata phase pushes is either a missing-field
message or an `Invalid `-prefixed message. -/
theorem runSteps_errs_shape (j : Json) (e : String) (he : e ∈ (runSteps j).1) :
    (∃ r, e = "Missing required metadata field: " ++ r) ∨ (∃ r, e = "Invalid " ++ r) := by
  have hsub : e ∈ (fieldLoop j REQUIRED_METADATA_FIELDS).1 ∨
      e ∈ (typeStep j).1 ∨ e ∈ (tsLoop j TIMESTAMP_FIELDS).1 := by
    simp only [runSteps] at he
    split at he
    · exact Or.inl he
    · split at he
      · exact Or.inl he
      · split at he
        · rcases List.mem_append.mp he with h1 | h1
          · exact Or.inl h1
          · exact Or.inr (Or.inl h1)
        · split at he
          · rcases List.mem_append.mp he with h1 | h1
            · exact Or.inl h1
            · exact Or.inr (Or.inl h1)
          · split at he
            · rcases List.mem_append.mp he with h1 | h1
              · rcases List.mem_append.mp h1 with h2 | h2
                · exact Or.inl h2
                · exact Or.inr (Or.inl h2)
              · exact Or.inr (Or.inr h1)
            · rcases List.mem_append.mp he with h1 | h1
              · rcases List.mem_append.mp h1 with h2 | h2
                · exact Or.inl h2
                · exact Or.inr (Or.inl h2)
              · exact Or.inr (Or.inr h1)
  rcases hsub with h1 | h1 | h1
  · obtain ⟨f, _, hf⟩ := fieldLoop_errs_shape j _ e h1
    exact Or.inl ⟨f, hf⟩
  · exact Or.inr (typeStep_errs_shape j e h1)
  · exact Or.inr (tsLoop_errs_shape j _ e h1)

theorem jsToStringO_str (s : String) : jsToStringO (some (Json.str s)) = s := rfl

theorem typeStep_str (j : Json) (h : j ≠ Json.null) (t : String)
    (ht : jsObjGet j "hc_type" = some (Json.str t)) (hne : t ≠ "") :
    typeStep j
      = (if t ∈ VALID_TYPES then []
         else ["Invalid hc_type: " ++ t ++ ". Must be one of: " ++
             String.intercalate ", " VALID_TYPES], none) := by
  simp only [typeStep, jsGet_ok j h, ht, jsTruthyO, jsTruthy, jsInStrList, jsToStringO_str]
  have hb : (t == "") = false := beq_eq_false_iff_ne.mpr hne
  rw [hb]
  by_cases hc : t ∈ VALID_TYPES
  · simp [hc]
  · simp [hc]

theorem typeStep_pass (j : Json) (h : j ≠ Json.null)
    (htr : jsTruthyO (jsObjGet j "hc_type") = true) (hnil : (typeStep j).1 = []) :
    jsInStrList (jsObjGet j "hc_type") VALID_TYPES = true := by
  simp only [typeStep, jsGet_ok j h] at hnil
  by_contra hc
  simp only [Bool.not_eq_true] at hc
  rw [htr, hc] at hnil
  simp at hnil

theorem tsLoop_congr (j j2 : Json) (hj : j ≠ Json.null) (hj2 : j2 ≠ Json.null)
    (fs : List String) (h : ∀ f ∈ fs, jsObjGet j2 f = jsObjGet j f) :
    tsLoop j2 fs = tsLoop j fs := by
  induction fs with
  | nil => rfl
  | cons f rest ih =>
    rw [tsLoop_cons j2 hj2, tsLoop_cons j hj, h f (List.mem_cons_self f rest),
      ih fun g hg => h g (List.mem_cons_of_mem f hg)]

theorem summaryStep_str (j : Json) (h : j ≠ Json.null) (s : String)
    (hs : jsObjGet j "summary" = some (Json.str s)) (hne : s ≠ "") :
    summaryStep j
      = (if (jsSplitWs s).length < 10 then
           ["Summary seems short (" ++ toString (jsSplitWs s).length ++
             " words). Aim for 50-100 tokens."]
         else [], none) := by
  simp only [summaryStep, jsGet_ok j h, hs, jsTruthyO, jsTruthy]
  have hb : (s == "") = false := beq_eq_false_iff_ne.mpr hne
  rw [hb]
  by_cases hw : (jsSplitWs s).length < 10
  · simp [hw]
  · simp [hw]

theorem summaryStep_noexc_str (j : Json) (h : j ≠ Json.null)
    (htr : jsTruthyO (jsObjGet j "summary") = true) (hn : (summaryStep j).2 = none) :
    ∃ s, jsObjGet j "summary" = some (Json.str s) := by
  simp only [summaryStep, jsGet_ok j h] at hn
  match hv : jsObjGet j "summary" with
  | none => rw [hv] at htr; simp [jsTruthyO] at htr
  | some (Json.str s) => exact ⟨s, rfl⟩
  | some Json.null => rw [hv] at htr; simp [jsTruthyO, jsTruthy] at htr
  | some (Json.bool b) => rw [hv] at htr hn; rw [htr] at hn; simp at hn
  | some (Json.num m e) => rw [hv] at htr hn; rw [htr] at hn; simp at hn
  | some (Json.arr a) => rw [hv] at htr hn; rw [htr] at hn; simp at hn
  | some (Json.obj l) => rw [hv] at htr hn; rw [htr] at hn; simp at hn

theorem metaPhase_eq (content m : String)
    (hm : extractScriptBlock content "hc-metadata" = some m) :
    metaPhase content = metaTryBody m := by
  simp [metaPhase, hm]

theorem metaTryBody_ok (m : String) (j : Json) (hp : jsonParse m = Except.ok j) :
    metaTryBody m = runSteps j := by
  simp [metaTryBody, hp]

theorem metaTryBody_err (m e : String) (hp : jsonParse m = Except.error e) :
    metaTryBody m = ([], [], some e) := by
  simp [metaTryBody, hp]

theorem validateResult_eq (content : String) :
    validateResult content
      = ⟨doctypeErrs content ++ blockErrs content ++ (metaPhase content).1 ++
          catchErrs (metaPhase content).2.2,
         (metaPhase content).2.1 ++ instrWarns content ++ docsWarns content⟩ := rfl

theorem doctypeErrs_shape (content : String) (e : String) (he : e ∈ doctypeErrs content) :
    e = "Missing HTML5 doctype (<!DOCTYPE html>)" := by
  simp only [doctypeErrs] at he
  split at he
  · exact List.mem_singleton.mp he
  · simp at he

theorem blockErrs_shape (content : String) (e : String) (he : e ∈ blockErrs content) :
    ∃ b, b ∈ REQUIRED_BLOCKS ∧ e = "Missing required block: #" ++ b ∧
      hasSubstr content ("id=\"" ++ b ++ "\"") = false := by
  simp only [blockErrs, List.mem_filterMap] at he
  obtain ⟨b, hb, hbe⟩ := he
  refine ⟨b, hb, ?_, ?_⟩ <;> revert hbe <;>
    by_cases hc : hasSubstr content ("id=\"" ++ b ++ "\"") = true <;>
      simp only [Bool.not_eq_true] at * <;> simp [hc]
  intro h
  exact h.symm

theorem catchErrs_shape (x : Option String) (e : String) (he : e ∈ catchErrs x) :
    ∃ r, e = "Invalid JSON in hc-metadata: " ++ r := by
  match x with
  | none => simp [catchErrs] at he
  | some msg => exact ⟨msg, List.mem_singleton.mp he⟩

theorem catchErrs_nil (x : Option String) (h : catchErrs x = []) : x = none := by
  match x with
  | none => rfl
  | some e => simp [catchErrs] at h

theorem validateResult_errors (content : String) :
    (validateResult content).errors
      = doctypeErrs content ++ blockErrs content ++ (metaPhase content).1 ++
          catchErrs (metaPhase content).2.2 := rfl

theorem validateResult_warnings (content : String) :
    (validateResult content).warnings
      = (metaPhase content).2.1 ++ instrWarns content ++ docsWarns content := rfl

/-! ### Claim theorems -/

/-- C2: for every document, the validation result is classified failed
(exit code 1, lines 119–136) iff the accumulated error list is
non-empty; a document with only warnings (or none) passes. -/
theorem c2_failed_iff_errors (content : String) :
    validateExit content = 1 ↔ (validateResult content).errors ≠ [] := by
  simp only [validateExit]
  rcases h : (validateResult content).errors with _ | ⟨e, rest⟩
  · simp
  · simp

/-- C3: whenever the extracted metadata block is not syntactically valid
JSON, the error list is exactly the pre-metadata errors plus the single
parse-failure error carrying the parser message, and the metadata phase
contributes no warnings: none of the field-level checks ran. -/
theorem c3_parse_failure_single_error (content m e : String)
    (hm : extractScriptBlock content "hc-metadata" = some m)
    (hp : jsonParse m = Except.error e) :
    (validateResult content).errors
        = doctypeErrs content ++ blockErrs content ++ ["Invalid JSON in hc-metadata: " ++ e]
      ∧ (validateResult content).warnings = instrWarns content ++ docsWarns content := by
  rw [validateResult_errors, validateResult_warnings, metaPhase_eq content m hm,
    metaTryBody_err m e hp]
  constructor
  · simp [catchErrs, List.append_assoc]
  · simp

/-- Witness for C3 at a concrete document with malformed metadata JSON. -/
theorem c3_witness :
    extractScriptBlock badJsonDoc "hc-metadata" = some "\x7boops"
      ∧ (∃ e, jsonParse "\x7boops" = Except.error e)
      ∧ (validateResult badJsonDoc).errors
          = doctypeErrs badJsonDoc ++ blockErrs badJsonDoc ++
              ["Invalid JSON in hc-metadata: Expected property name in JSON object"] := by
  refine ⟨rfl, ⟨"Expected property name in JSON object", rfl⟩, ?_⟩
  exact (c3_parse_failure_single_error badJsonDoc "\x7boops"
    "Expected property name in JSON object" rfl rfl).1

/-- C9: the validation routine is a total function into
`ValidationResult` (it is defined as one), and every exception pending
inside the metadata try-body — the only place the modelled JS semantics
can throw — is caught and recorded as an `Invalid JSON in hc-metadata`
error finding rather than propagating. -/
theorem c9_no_exception_escapes (content m e : String)
    (hm : extractScriptBlock content "hc-metadata" = some m)
    (he : (metaTryBody m).2.2 = some e) :
    ("Invalid JSON in hc-metadata: " ++ e) ∈ (validateResult content).errors := by
  rw [validateResult_errors, metaPhase_eq content m hm, he]
  simp [catchErrs]

/-- Witness for C9 at a concrete document whose metadata text is
truncated JSON. -/
theorem c9_witness :
    extractScriptBlock badJsonDoc2 "hc-metadata" = some "[1,"
      ∧ (metaTryBody "[1,").2.2 = some "Unexpected end of JSON input"
      ∧ ("Invalid JSON in hc-metadata: Unexpected end of JSON input")
          ∈ (validateResult badJsonDoc2).errors := by
  refine ⟨rfl, rfl, ?_⟩
  exact c9_no_exception_escapes badJsonDoc2 "[1," "Unexpected end of JSON input" rfl rfl

/-- C10 (confirmed): a document whose metadata block is perfectly valid
JSON (`{"summary": 5}`) still ends with an error message claiming
invalid JSON in the metadata block — the truthy non-string summary makes
`metadata.summary.split` throw into the same catch handler — and the six
missing-field errors recorded before the throw are retained alongside
it. -/
theorem c10_spurious_invalid_json :
    (∃ j, jsonParse "\x7b\"summary\": 5\x7d" = Except.ok j)
      ∧ extractScriptBlock numSummaryDoc "hc-metadata" = some "\x7b\"summary\": 5\x7d"
      ∧ (validateResult numSummaryDoc).errors
          = ["Missing required block: #hc-instructions",
             "Missing required block: #hc-human-docs",
             "Missing required metadata field: hc_version",
             "Missing required metadata field: hc_type",
             "Missing required metadata field: artifact_id",
             "Missing required metadata field: version",
             "Missing required metadata field: created",
             "Missing required metadata field: updated",
             "Invalid JSON in hc-metadata: metadata.summary.split is not a function"] := by
  refine ⟨⟨Json.obj [("summary", Json.num 5 0)], rfl⟩, rfl, by decide⟩

/-- C1 counterexample: a batch of two documents where the first file is
unreadable; the second file is present in the model file system, yet no
report at all is produced (the process exits), refuting "every document
in the batch is validated and reported". -/
theorem c1_counterexample :
    readFs [("b.html", "x")] "b.html" = some "x"
      ∧ (mainRun [("b.html", "x")] ["a.html", "b.html"]).1 = []
      ∧ (mainRun [("b.html", "x")] ["a.html", "b.html"]).2 = 1 := by
  exact ⟨rfl, rfl, rfl⟩

/-- C1 amended: a fatal read failure terminates the whole batch — the
readable documents before it are each validated and reported, the
failing document and all later documents are not, and the exit code is
1.  (Content-level failures never have this effect: a readable document
always produces its report and the loop continues.) -/
theorem c1_amended_read_failure_aborts_batch (fs : List (String × String))
    (pre : List String) (bad : String) (post : List String) (code : Nat)
    (hpre : ∀ a ∈ pre, (readFs fs a).isSome = true)
    (hbad : readFs fs bad = none) :
    (runBatch fs (pre ++ bad :: post) code).1.map Prod.fst = pre
      ∧ (runBatch fs (pre ++ bad :: post) code).2 = 1 := by
  induction pre generalizing code with
  | nil => simp [runBatch, hbad]
  | cons a rest ih =>
    have ha : (readFs fs a).isSome = true := hpre a (List.mem_cons_self a rest)
    obtain ⟨c, hc⟩ := Option.isSome_iff_exists.mp ha
    have hrest : ∀ x ∈ rest, (readFs fs x).isSome = true :=
      fun x hx => hpre x (List.mem_cons_of_mem a hx)
    have hih := ih (if validateExit c != 0 then validateExit c else code) hrest
    simp only [List.cons_append, runBatch, hc, List.map_cons, List.append_eq]
    exact ⟨by rw [hih.1], hih.2⟩

/-- Witness for the amended C1 at a concrete file system and batch. -/
theorem c1_witness :
    (∀ a ∈ ["a.html"], (readFs [("a.html", "x")] a).isSome = true)
      ∧ readFs [("a.html", "x")] "b.html" = none
      ∧ (runBatch [("a.html", "x")] (["a.html"] ++ "b.html" :: ["c.html"]) 0).1.map Prod.fst
          = ["a.html"]
      ∧ (runBatch [("a.html", "x")] (["a.html"] ++ "b.html" :: ["c.html"]) 0).2 = 1 := by
  have h := c1_amended_read_failure_aborts_batch [("a.html", "x")] ["a.html"] "b.html"
    ["c.html"] 0 (by decide) (by rfl)
  exact ⟨by decide, rfl, h.1, h.2⟩

theorem splitAtFirst_eq (t : Char) (l pre post : List Char)
    (h : splitAtFirst t l = some (pre, post)) : l = pre ++ t :: post := by
  induction l generalizing pre with
  | nil => simp [splitAtFirst] at h
  | cons c rest ih =>
    simp only [splitAtFirst] at h
    by_cases hc : (c == t) = true
    · rw [if_pos hc] at h
      obtain ⟨h1, h2⟩ := Prod.mk.injEq .. ▸ (Option.some.injEq .. ▸ h)
      subst h1 h2
      rw [show c = t from beq_iff_eq.mp hc]
      rfl
    · rw [if_neg hc] at h
      match hs : splitAtFirst t rest with
      | none => rw [hs] at h; simp at h
      | some (pre2, post2) =>
        rw [hs] at h
        simp only [Option.some.injEq, Prod.mk.injEq] at h
        obtain ⟨h1, h2⟩ := h
        subst h2
        rw [← h1, ih pre2 hs]
        rfl

/-- A successful anchored match implies the id attribute occurs in the
scanned text. -/
theorem tryMatchAt_hasSub (openTag closeTag idAttr l cap : List Char)
    (h : tryMatchAt openTag closeTag idAttr l = some cap) :
    listHasSub idAttr l = true := by
  simp only [tryMatchAt] at h
  by_cases hopen : openTag.isPrefixOf l = true
  · simp only [hopen, if_true] at h
    match hs : splitAtFirst '>' (l.drop openTag.length) with
    | none =>
      simp only [hs] at h
      exact Option.noConfusion h
    | some (region, afterGt) =>
      simp only [hs] at h
      by_cases hid : listHasSub idAttr region = true
      · have hregion := splitAtFirst_eq '>' _ region afterGt hs
        have h1 : idAttr <:+: region := (listHasSub_iff idAttr region).mp hid
        have h2 : region <:+: l.drop openTag.length := by
          rw [hregion]; exact ⟨[], '>' :: afterGt, by simp⟩
        exact (listHasSub_iff idAttr l).mpr
          (h1.trans (h2.trans (List.drop_suffix _ l).isInfix))
      · simp only [Bool.not_eq_true] at hid
        simp only [hid, Bool.false_eq_true, if_false] at h
        exact Option.noConfusion h
  · simp only [Bool.not_eq_true] at hopen
    simp only [hopen, Bool.false_eq_true, if_false] at h
    exact Option.noConfusion h

theorem extractTagged_hasSub (openTag closeTag idAttr l cap : List Char)
    (h : extractTagged openTag closeTag idAttr l = some cap) :
    listHasSub idAttr l = true := by
  induction l with
  | nil => simp [extractTagged] at h
  | cons c rest ih =>
    simp only [extractTagged] at h
    match hm : tryMatchAt openTag closeTag idAttr (c :: rest) with
    | some cap2 => exact tryMatchAt_hasSub openTag closeTag idAttr (c :: rest) cap2 hm
    | none =>
      rw [hm] at h
      rw [listHasSub_cons]
      exact Bool.or_eq_true_iff.mpr (Or.inr (ih h))

/-- If the `id="hc-metadata"` substring is absent, the metadata regex
cannot match. -/
theorem extract_none_of_no_id (content : String)
    (h : hasSubstr content "id=\"hc-metadata\"" = false) :
    extractScriptBlock content "hc-metadata" = none := by
  rcases hx : extractScriptBlock content "hc-metadata" with _ | m
  · rfl
  · exfalso
    simp only [extractScriptBlock, Option.map_eq_some'] at hx
    obtain ⟨cap, hcap, _⟩ := hx
    have h2 := extractTagged_hasSub _ _ _ _ _ hcap
    rw [show ("id=\"" ++ "hc-metadata" ++ "\"" : String) = "id=\"hc-metadata\"" from rfl] at h2
    rw [hasSubstr] at h
    rw [h] at h2
    exact Bool.false_ne_true h2

/-- C4 counterexample: in a document where `id="hc-metadata"` appears as
bare text (not on a `<script>` element) the extraction fails — so every
metadata-field check is skipped — yet the error list contains no
missing-block error for the metadata block. -/
theorem c4_counterexample :
    extractScriptBlock bareIdDoc "hc-metadata" = none
      ∧ "Missing required block: #hc-metadata" ∉ (validateResult bareIdDoc).errors := by
  exact ⟨rfl, by decide⟩

/-- C4 amended: when the metadata identifier substring is absent from the
document, the extraction indeed yields nothing and the missing-block
error for the metadata block is in the error list; but (per the
counterexample) extraction can also fail while the identifier substring
is present, and then the metadata checks are skipped with no
missing-block error. -/
theorem c4_amended_missing_id (content : String)
    (h : hasSubstr content "id=\"hc-metadata\"" = false) :
    extractScriptBlock content "hc-metadata" = none
      ∧ "Missing required block: #hc-metadata" ∈ (validateResult content).errors := by
  refine ⟨extract_none_of_no_id content h, ?_⟩
  rw [validateResult_errors]
  have hmem : "Missing required block: #hc-metadata" ∈ blockErrs content := by
    simp only [blockErrs, REQUIRED_BLOCKS, List.filterMap_cons]
    rw [show ("id=\"" ++ "hc-metadata" ++ "\"" : String) = "id=\"hc-metadata\"" from rfl, h]
    simp
  simp only [List.mem_append]
  exact Or.inl (Or.inl (Or.inr hmem))

/-- Witness for the amended C4 at a concrete document lacking the
metadata identifier. -/
theorem c4_witness :
    hasSubstr "<html>" "id=\"hc-metadata\"" = false
      ∧ extractScriptBlock "<html>" "hc-metadata" = none
      ∧ "Missing required block: #hc-metadata" ∈ (validateResult "<html>").errors := by
  have h := c4_amended_missing_id "<html>" (by decide)
  exact ⟨by decide, h.1, h.2⟩

/-- No error pushed by the metadata phase (including the catch handler)
is a missing-block message. -/
theorem metaErrs_ne_block (content b : String) :
    ∀ e, e ∈ (metaPhase content).1 ++ catchErrs (metaPhase content).2.2 →
      e ≠ "Missing required block: #" ++ b := by
  intro e he
  rcases List.mem_append.mp he with h1 | h1
  · have hshape : (∃ r, e = "Missing required metadata field: " ++ r)
        ∨ (∃ r, e = "Invalid " ++ r) := by
      simp only [metaPhase] at h1
      split at h1
      · simp at h1
      · simp only [metaTryBody] at h1
        split at h1
        · simp at h1
        · exact runSteps_errs_shape _ e h1
    rcases hshape with ⟨r, rfl⟩ | ⟨r, rfl⟩
    · exact strcat_ne_strcat _ _ _ _ 18 (by decide) (by decide) (by decide)
    · exact strcat_ne_strcat _ _ _ _ 1 (by decide) (by decide) (by decide)
  · obtain ⟨r, rfl⟩ := catchErrs_shape _ e h1
    rw [show ("Invalid JSON in hc-metadata: " : String)
        = "Invalid " ++ "JSON in hc-metadata: " from rfl, str_assoc]
    exact strcat_ne_strcat _ _ _ _ 1 (by decide) (by decide) (by decide)

/-- C5: for each of the three required block identifiers, the error list
contains the missing-block error for that block exactly once when the
literal `id="BLOCK"` substring is absent, and not at all when it is
present. -/
theorem c5_missing_block_count (content b : String) (hb : b ∈ REQUIRED_BLOCKS) :
    ((validateResult content).errors).count ("Missing required block: #" ++ b)
      = if hasSubstr content ("id=\"" ++ b ++ "\"") = true then 0 else 1 := by
  rw [validateResult_errors, List.count_append, List.count_append, List.count_append]
  have hdoc : (doctypeErrs content).count ("Missing required block: #" ++ b) = 0 := by
    apply List.count_eq_zero.mpr
    intro hmem
    exact strcat_ne_left "Missing required block: #" b _ 9 (by decide) (by decide)
      (doctypeErrs_shape content _ hmem)
  have hmeta : ((metaPhase content).1).count ("Missing required block: #" ++ b) = 0 := by
    apply List.count_eq_zero.mpr
    intro hmem
    exact metaErrs_ne_block content b _ (List.mem_append.mpr (Or.inl hmem)) rfl
  have hcatch : (catchErrs (metaPhase content).2.2).count ("Missing required block: #" ++ b)
      = 0 := by
    apply List.count_eq_zero.mpr
    intro hmem
    exact metaErrs_ne_block content b _ (List.mem_append.mpr (Or.inr hmem)) rfl
  have hblock : (blockErrs content).count ("Missing required block: #" ++ b)
      = if hasSubstr content ("id=\"" ++ b ++ "\"") = true then 0 else 1 := by
    simp only [REQUIRED_BLOCKS, List.mem_cons, List.not_mem_nil, or_false] at hb
    rcases hb with rfl | rfl | rfl <;>
      · simp only [blockErrs, REQUIRED_BLOCKS, List.filterMap_cons]
        split_ifs <;> simp_all
  rw [hdoc, hmeta, hcatch, hblock]
  split <;> rfl

/-- Witness for C5: in `bareIdDoc` the metadata identifier appears (count
0) while the instructions identifier is absent (count 1). -/
theorem c5_witness :
    "hc-metadata" ∈ REQUIRED_BLOCKS
      ∧ ((validateResult bareIdDoc).errors).count
          ("Missing required block: #" ++ "hc-metadata")
          = (if hasSubstr bareIdDoc ("id=\"" ++ "hc-metadata" ++ "\"") = true then 0 else 1)
      ∧ "hc-instructions" ∈ REQUIRED_BLOCKS
      ∧ ((validateResult bareIdDoc).errors).count
          ("Missing required block: #" ++ "hc-instructions")
          = (if hasSubstr bareIdDoc ("id=\"" ++ "hc-instructions" ++ "\"") = true then 0 else 1) := by
  exact ⟨by decide, c5_missing_block_count bareIdDoc "hc-metadata" (by decide),
    by decide, c5_missing_block_count bareIdDoc "hc-instructions" (by decide)⟩

/-- C6 (amended): when the metadata block parses to a non-null JSON
value, the missing-field error for each of the seven required field
names is in the error list iff the value of that field is absent or
JSON-falsy.  (For a metadata value of `null` the claim fails: the first
property read throws, so no field error is recorded at all — see the
counterexample.) -/
theorem c6_field_error_iff (content m : String) (j : Json) (f : String)
    (hm : extractScriptBlock content "hc-metadata" = some m)
    (hp : jsonParse m = Except.ok j)
    (hnull : j ≠ Json.null)
    (hf : f ∈ REQUIRED_METADATA_FIELDS) :
    (("Missing required metadata field: " ++ f) ∈ (validateResult content).errors)
      ↔ jsTruthyO (jsObjGet j f) = false := by
  rw [validateResult_errors, metaPhase_eq content m hm, metaTryBody_ok m j hp,
    runSteps_eq j hnull]
  constructor
  · intro hmem
    rcases List.mem_append.mp hmem with h1 | h1
    · rcases List.mem_append.mp h1 with h2 | h2
      · rcases List.mem_append.mp h2 with h3 | h3
        · exact absurd (doctypeErrs_shape content _ h3)
            (strcat_ne_left "Missing required metadata field: " f _ 9 (by decide) (by decide))
        · obtain ⟨b0, _, hbe, _⟩ := blockErrs_shape content _ h3
          exact absurd hbe
            (strcat_ne_strcat _ _ _ _ 18 (by decide) (by decide) (by decide))
      · rcases List.mem_append.mp h2 with h3 | h3
        · rcases List.mem_append.mp h3 with h4 | h4
          · exact ((fieldLoop_errs_mem j hnull REQUIRED_METADATA_FIELDS f).mp h4).2
          · obtain ⟨r, hr⟩ := typeStep_errs_shape j _ h4
            exact absurd hr
              (fun hc => (strcat_ne_strcat "Missing required metadata field: " f "Invalid " r 1
                (by decide) (by decide) (by decide)) hc)
        · obtain ⟨r, hr⟩ := tsLoop_errs_shape j _ _ h3
          exact absurd hr
            (fun hc => (strcat_ne_strcat "Missing required metadata field: " f "Invalid " r 1
              (by decide) (by decide) (by decide)) hc)
    · obtain ⟨r, hr⟩ := catchErrs_shape _ _ h1
      rw [show ("Invalid JSON in hc-metadata: " : String)
          = "Invalid " ++ "JSON in hc-metadata: " from rfl, str_assoc] at hr
      exact absurd hr
        (fun hc => (strcat_ne_strcat "Missing required metadata field: " f "Invalid " _ 1
          (by decide) (by decide) (by decide)) hc)
  · intro hfal
    have hmem := (fieldLoop_errs_mem j hnull REQUIRED_METADATA_FIELDS f).mpr ⟨hf, hfal⟩
    exact List.mem_append.mpr (Or.inl (List.mem_append.mpr (Or.inr
      (List.mem_append.mpr (Or.inl (List.mem_append.mpr (Or.inl hmem)))))))

/-- C6 counterexample: metadata `null` is syntactically valid JSON and
has every field absent, yet no missing-field error is recorded (the
first property read throws into the catch handler instead). -/
theorem c6_counterexample :
    extractScriptBlock nullMetaDoc "hc-metadata" = some "null"
      ∧ jsonParse "null" = Except.ok Json.null
      ∧ jsObjGet Json.null "hc_version" = none
      ∧ "Missing required metadata field: hc_version" ∉ (validateResult nullMetaDoc).errors
      ∧ (validateResult nullMetaDoc).errors
          = ["Invalid JSON in hc-metadata: Cannot read properties of null"] := by
  exact ⟨rfl, rfl, rfl, by decide, by decide⟩

/-- Witness for the amended C6 on a concrete document: `hc_version` is
absent from `{"summary": 5}`, so its missing-field error is recorded. -/
theorem c6_witness :
    jsonParse "\x7b\"summary\": 5\x7d" = Except.ok (Json.obj [("summary", Json.num 5 0)])
      ∧ jsTruthyO (jsObjGet (Json.obj [("summary", Json.num 5 0)]) "hc_version") = false
      ∧ "Missing required metadata field: hc_version" ∈ (validateResult numSummaryDoc).errors := by
  refine ⟨rfl, rfl, ?_⟩
  exact (c6_field_error_iff numSummaryDoc "\x7b\"summary\": 5\x7d"
    (Json.obj [("summary", Json.num 5 0)]) "hc_version" rfl rfl
    (fun h => Json.noConfusion h) (by decide)).mpr rfl

/-- C8: with a present (truthy, string) summary, the summary is split on
whitespace runs and the token count compared with 10: a 9-token summary
adds the short-summary warning, a 10-token summary adds nothing — in
both cases the remaining warnings are exactly those of the other steps. -/
theorem c8_summary_boundary (content m : String) (j : Json) (s : String)
    (hm : extractScriptBlock content "hc-metadata" = some m)
    (hp : jsonParse m = Except.ok j)
    (hs : jsObjGet j "summary" = some (Json.str s))
    (hne : s ≠ "") :
    ((jsSplitWs s).length = 9 →
        (validateResult content).warnings
          = (versionStep j).1 ++ (artifactStep j).1 ++
              ["Summary seems short (9 words). Aim for 50-100 tokens."] ++
              instrWarns content ++ docsWarns content)
      ∧ ((jsSplitWs s).length = 10 →
        (validateResult content).warnings
          = (versionStep j).1 ++ (artifactStep j).1 ++
              instrWarns content ++ docsWarns content) := by
  have hnull : j ≠ Json.null := by
    intro h; rw [h] at hs; simp [jsObjGet] at hs
  rw [validateResult_warnings, metaPhase_eq content m hm, metaTryBody_ok m j hp,
    runSteps_eq j hnull, summaryStep_str j hnull s hs hne]
  constructor
  · intro h9
    rw [h9]
    simp only [List.append_assoc, Nat.lt_irrefl, if_true, show (9 : Nat) < 10 by norm_num]
    have h : ("Summary seems short (" ++ toString (9 : Nat) ++
        " words). Aim for 50-100 tokens." : String)
        = "Summary seems short (9 words). Aim for 50-100 tokens." := by decide
    rw [h]
  · intro h10
    rw [h10]
    simp

/-- Witness for C8 at the nine-word-summary document. -/
theorem c8_witness :
    (jsSplitWs "one two three four five six seven eight nine").length = 9
      ∧ (validateResult nineWordDoc).warnings
          = ["Summary seems short (9 words). Aim for 50-100 tokens.",
             "hc-instructions seems very short. Include detailed steps.",
             "hc-human-docs seems very short. Include comprehensive documentation."] := by
  refine ⟨by decide, ?_⟩
  have h := (c8_summary_boundary nineWordDoc
    "\x7b\"hc_version\":\"1.1\",\"hc_type\":\"skill\",\"artifact_id\":\"hc-skill-foo-bar-20240208\",\"version\":\"1.0.0\",\"created\":\"2024-02-08T00:00:00Z\",\"updated\":\"2024-02-08T00:00:00Z\",\"summary\":\"one two three four five six seven eight nine\"\x7d"
    (Json.obj [("hc_version", Json.str "1.1"), ("hc_type", Json.str "skill"),
      ("artifact_id", Json.str "hc-skill-foo-bar-20240208"), ("version", Json.str "1.0.0"),
      ("created", Json.str "2024-02-08T00:00:00Z"), ("updated", Json.str "2024-02-08T00:00:00Z"),
      ("summary", Json.str "one two three four five six seven eight nine")])
    "one two three four five six seven eight nine" rfl rfl rfl (by decide)).1 (by decide)
  exact h.trans (by decide)

/-- C7 (amended): starting from any document whose validation yields zero
errors, changing only the type-classifier field to a *truthy* value
outside the allowed set makes the error list exactly the one error
naming the invalid type and listing the allowed set; changing it to a
value inside the set leaves the error list empty.  (A falsy replacement
such as `""` instead yields the missing-field error — see the
counterexample.) -/
theorem c7_type_flip (content content2 m m2 : String) (j j2 : Json) (t : String)
    (hm : extractScriptBlock content "hc-metadata" = some m)
    (hp : jsonParse m = Except.ok j)
    (hm2 : extractScriptBlock content2 "hc-metadata" = some m2)
    (hp2 : jsonParse m2 = Except.ok j2)
    (hd : doctypeErrs content2 = doctypeErrs content)
    (hb : blockErrs content2 = blockErrs content)
    (hsame : ∀ k ∈ REQUIRED_METADATA_FIELDS, k ≠ "hc_type" → jsObjGet j2 k = jsObjGet j k)
    (hty : jsObjGet j2 "hc_type" = some (Json.str t))
    (hpass : (validateResult content).errors = [])
    (hne : t ≠ "") :
    (t ∉ VALID_TYPES →
        (validateResult content2).errors
          = ["Invalid hc_type: " ++ t ++ ". Must be one of: " ++
              String.intercalate ", " VALID_TYPES])
      ∧ (t ∈ VALID_TYPES → (validateResult content2).errors = []) := by
  have hnull2 : j2 ≠ Json.null := by
    intro h; rw [h] at hty; simp [jsObjGet] at hty
  rw [validateResult_errors, metaPhase_eq content m hm, metaTryBody_ok m j hp] at hpass
  obtain ⟨h1, hc0⟩ := List.append_eq_nil.mp hpass
  obtain ⟨h2, hrs⟩ := List.append_eq_nil.mp h1
  obtain ⟨hd0, hb0⟩ := List.append_eq_nil.mp h2
  have hnull : j ≠ Json.null := by
    intro h
    rw [h] at hc0
    exact absurd hc0 (by decide)
  rw [runSteps_eq j hnull] at hrs hc0
  obtain ⟨h3, htsE⟩ := List.append_eq_nil.mp hrs
  obtain ⟨hfL, _⟩ := List.append_eq_nil.mp h3
  have hexc : (summaryStep j).2 = none := catchErrs_nil _ hc0
  have htruth : ∀ f ∈ REQUIRED_METADATA_FIELDS, jsTruthyO (jsObjGet j f) = true :=
    (fieldLoop_errs_nil j hnull REQUIRED_METADATA_FIELDS).mp hfL
  have hsumtr : jsTruthyO (jsObjGet j "summary") = true := htruth "summary" (by decide)
  obtain ⟨s, hsv⟩ := summaryStep_noexc_str j hnull hsumtr hexc
  have hsne : s ≠ "" := by
    intro h
    rw [h] at hsv
    rw [hsv] at hsumtr
    simp [jsTruthyO, jsTruthy] at hsumtr
  have hfL2 : (fieldLoop j2 REQUIRED_METADATA_FIELDS).1 = [] := by
    apply (fieldLoop_errs_nil j2 hnull2 REQUIRED_METADATA_FIELDS).mpr
    intro f hf
    by_cases hk : f = "hc_type"
    · subst hk
      rw [hty]
      simp [jsTruthyO, jsTruthy, hne]
    · rw [hsame f hf hk]
      exact htruth f hf
  have hagree : ∀ f ∈ TIMESTAMP_FIELDS, jsObjGet j2 f = jsObjGet j f := by
    intro f hf
    have hor : f = "created" ∨ f = "updated" := by
      simpa [TIMESTAMP_FIELDS] using hf
    rcases hor with rfl | rfl
    · exact hsame "created" (by decide) (by decide)
    · exact hsame "updated" (by decide) (by decide)
  have hts2 : (tsLoop j2 TIMESTAMP_FIELDS).1 = [] := by
    rw [tsLoop_congr j j2 hnull hnull2 TIMESTAMP_FIELDS hagree]
    exact htsE
  have hsv2 : jsObjGet j2 "summary" = some (Json.str s) := by
    rw [hsame "summary" (by decide) (by decide)]
    exact hsv
  have herr2 : (validateResult content2).errors = (typeStep j2).1 := by
    rw [validateResult_errors, metaPhase_eq content2 m2 hm2, metaTryBody_ok m2 j2 hp2,
      runSteps_eq j2 hnull2, hd, hb, hd0, hb0, hfL2, hts2,
      summaryStep_str j2 hnull2 s hsv2 hsne]
    simp [catchErrs]
  rw [typeStep_str j2 hnull2 t hty hne] at herr2
  constructor
  · intro hnotin
    rw [if_neg hnotin] at herr2
    exact herr2.trans rfl
  · intro hin
    rw [if_pos hin] at herr2
    exact herr2.trans rfl

/-- C7 counterexample: changing the type field of an otherwise-valid
document to `""` — a value outside the five allowed names — flips the
verdict, but the single error is the missing-field error, not an error
naming the invalid type and listing the allowed set. -/
theorem c7_counterexample :
    (validateResult passDoc).errors = []
      ∧ jsonParse "\x7b\"hc_version\":\"1.1\",\"hc_type\":\"\",\"artifact_id\":\"hc-skill-foo-bar-20240208\",\"version\":\"1.0.0\",\"created\":\"2024-02-08T00:00:00Z\",\"updated\":\"2024-02-08T00:00:00Z\",\"summary\":\"one two three four five six seven eight nine ten\"\x7d"
          = Except.ok (Json.obj [("hc_version", Json.str "1.1"), ("hc_type", Json.str ""),
              ("artifact_id", Json.str "hc-skill-foo-bar-20240208"),
              ("version", Json.str "1.0.0"), ("created", Json.str "2024-02-08T00:00:00Z"),
              ("updated", Json.str "2024-02-08T00:00:00Z"),
              ("summary", Json.str "one two three four five six seven eight nine ten")])
      ∧ "" ∉ VALID_TYPES
      ∧ (validateResult emptyTypeDoc).errors = ["Missing required metadata field: hc_type"]
      ∧ ("Invalid hc_type: . Must be one of: registry, skill, artifact, identity, framework")
          ∉ (validateResult emptyTypeDoc).errors := by
  exact ⟨by decide, rfl, by decide, by decide, by decide⟩

/-- Witness for the amended C7: `passDoc` passes; replacing `hc_type` by
the truthy out-of-set `"widget"` yields exactly the one enum error. -/
theorem c7_witness :
    (validateResult passDoc).errors = []
      ∧ "widget" ∉ VALID_TYPES
      ∧ (validateResult widgetDoc).errors
          = ["Invalid hc_type: widget. Must be one of: registry, skill, artifact, identity, framework"] := by
  refine ⟨by decide, by decide, ?_⟩
  have h := (c7_type_flip passDoc widgetDoc
    "\x7b\"hc_version\":\"1.1\",\"hc_type\":\"skill\",\"artifact_id\":\"hc-skill-foo-bar-20240208\",\"version\":\"1.0.0\",\"created\":\"2024-02-08T00:00:00Z\",\"updated\":\"2024-02-08T00:00:00Z\",\"summary\":\"one two three four five six seven eight nine ten\"\x7d"
    "\x7b\"hc_version\":\"1.1\",\"hc_type\":\"widget\",\"artifact_id\":\"hc-skill-foo-bar-20240208\",\"version\":\"1.0.0\",\"created\":\"2024-02-08T00:00:00Z\",\"updated\":\"2024-02-08T00:00:00Z\",\"summary\":\"one two three four five six seven eight nine ten\"\x7d"
    (Json.obj [("hc_version", Json.str "1.1"), ("hc_type", Json.str "skill"),
      ("artifact_id", Json.str "hc-skill-foo-bar-20240208"), ("version", Json.str "1.0.0"),
      ("created", Json.str "2024-02-08T00:00:00Z"), ("updated", Json.str "2024-02-08T00:00:00Z"),
      ("summary", Json.str "one two three four five six seven eight nine ten")])
    (Json.obj [("hc_version", Json.str "1.1"), ("hc_type", Json.str "widget"),
      ("artifact_id", Json.str "hc-skill-foo-bar-20240208"), ("version", Json.str "1.0.0"),
      ("created", Json.str "2024-02-08T00:00:00Z"), ("updated", Json.str "2024-02-08T00:00:00Z"),
      ("summary", Json.str "one two three four five six seven eight nine ten")])
    "widget" rfl rfl rfl rfl (by decide) (by decide) ?_ rfl (by decide) (by decide)).1 (by decide)
  · exact h.trans (by decide)
  · intro k hk hkne
    simp only [REQUIRED_METADATA_FIELDS, List.mem_cons, List.not_mem_nil, or_false] at hk
    rcases hk with rfl | rfl | rfl | rfl | rfl | rfl | rfl
    · rfl
    · exact absurd rfl hkne
    · rfl
    · rfl
    · rfl
    · rfl
    · rfl
